import Mathlib

/-!
# Verification of the downloader proxy/node core

A shallow embedding of the core of the `zanz1n/downloader` repository:
the wire codec for the TCP handshake (`internal/transport`), the
shared-secret signature engine (`cmd/proxy/server/models.go` and
`cmd/node/tcp`), the JWT credential service
(`cmd/proxy/repository/auth`), the node file endpoint
(`cmd/node/tcp`, `cmd/node/server`) and the proxy file router
(`cmd/proxy/server/file_routes.go`).

Go byte strings (`string` and `[]byte` alike) are modelled as `List Nat`
with each element a byte value; machine words are `Nat` reduced modulo
`2 ^ 32` where the Go code computes on `uint32`.
-/

namespace Downloader

instance {ε α : Type} [DecidableEq ε] [DecidableEq α] :
    DecidableEq (Except ε α) := fun a b => by
  cases a <;> cases b
  case error.error x y => exact decidable_of_iff (x = y) (by simp)
  case ok.ok x y => exact decidable_of_iff (x = y) (by simp)
  all_goals exact isFalse (by simp)

/-! ## SHA-256 (model of Go `crypto/sha256`)

The node and the proxy both call the standard library's SHA-256.  The
compression constants are not transcribed: they are computed from their
definition (fractional parts of the cube/square roots of the first
primes), which makes the model self-certifying. -/

/-- Trial-division primality test, used only to derive the SHA-256
round constants. -/
def isPrimeNat (n : Nat) : Bool :=
  2 ≤ n && (((List.range n).drop 2).all fun d => n % d != 0)

/-- The first `k` prime numbers (64 are needed; the 64th prime is 311). -/
def firstPrimes (k : Nat) : List Nat :=
  ((List.range 400).filter isPrimeNat).take k

/-- Fueled integer cube-root binary search: greatest `r` with `r ^ 3 ≤ n`. -/
def natCbrtAux (n : Nat) : Nat → Nat → Nat → Nat
  | 0, lo, _ => lo
  | fuel + 1, lo, hi =>
    if hi ≤ lo + 1 then lo
    else
      let mid := (lo + hi) / 2
      if mid ^ 3 ≤ n then natCbrtAux n fuel mid hi
      else natCbrtAux n fuel lo mid

/-- Integer cube root. -/
def natCbrt (n : Nat) : Nat := natCbrtAux n 400 0 (n + 1)

/-- SHA-256 round constants: first 32 bits of the fractional parts of
the cube roots of the first 64 primes. -/
def sha256K : List Nat :=
  (firstPrimes 64).map fun p => natCbrt (p * 2 ^ 96) % 2 ^ 32

/-- SHA-256 initial hash value: first 32 bits of the fractional parts of
the square roots of the first 8 primes. -/
def sha256H0 : List Nat :=
  (firstPrimes 8).map fun p => Nat.sqrt (p * 2 ^ 64) % 2 ^ 32

/-- 32-bit right rotation. -/
def rotr32 (n x : Nat) : Nat :=
  ((x >>> n) ||| (x <<< (32 - n))) % 2 ^ 32

/-- Big-endian bytes of a 64-bit value. -/
def be64 (n : Nat) : List Nat :=
  (List.range 8).map fun i => n >>> (8 * (7 - i)) % 256

/-- SHA-256 padding: append `0x80`, zeros, and the 64-bit bit length so
the total length is a multiple of 64 bytes. -/
def sha256Pad (msg : List Nat) : List Nat :=
  let l := msg.length
  let padLen := (119 - l % 64) % 64 + 1
  msg ++ [0x80] ++ List.replicate (padLen - 1) 0 ++ be64 (8 * l)

/-- Split a list into chunks of `n` elements (fueled). -/
def chunkList (n : Nat) : Nat → List Nat → List (List Nat)
  | 0, _ => []
  | _, [] => []
  | fuel + 1, l => l.take n :: chunkList n fuel (l.drop n)

/-- Big-endian 32-bit words of a 64-byte block. -/
def blockWords (block : List Nat) : List Nat :=
  (chunkList 4 (block.length + 1) block).map fun c =>
    c.foldl (fun acc b => acc * 256 + b) 0

def smallSigma0 (x : Nat) : Nat := rotr32 7 x ^^^ rotr32 18 x ^^^ (x >>> 3)
def smallSigma1 (x : Nat) : Nat := rotr32 17 x ^^^ rotr32 19 x ^^^ (x >>> 10)
def bigSigma0 (x : Nat) : Nat := rotr32 2 x ^^^ rotr32 13 x ^^^ rotr32 22 x
def bigSigma1 (x : Nat) : Nat := rotr32 6 x ^^^ rotr32 11 x ^^^ rotr32 25 x

/-- Extend the 16 block words to the 64-word message schedule. -/
def sha256Extend : List Nat → Nat → List Nat
  | w, 0 => w
  | w, fuel + 1 =>
    let n := w.length
    let wi := (smallSigma1 (w.getD (n - 2) 0) + w.getD (n - 7) 0 +
               smallSigma0 (w.getD (n - 15) 0) + w.getD (n - 16) 0) % 2 ^ 32
    sha256Extend (w ++ [wi]) fuel

/-- One SHA-256 round: state `[a,b,c,d,e,f,g,h]` and pair `(kᵢ, wᵢ)`. -/
def sha256Round (st : List Nat) (kw : Nat × Nat) : List Nat :=
  match st with
  | [a, b, c, d, e, f, g, h] =>
    let ch := (e &&& f) ^^^ ((2 ^ 32 - 1 - e) &&& g)
    let maj := (a &&& b) ^^^ (a &&& c) ^^^ (b &&& c)
    let t1 := (h + bigSigma1 e + ch + kw.1 + kw.2) % 2 ^ 32
    let t2 := (bigSigma0 a + maj) % 2 ^ 32
    [(t1 + t2) % 2 ^ 32, a, b, c, (d + t1) % 2 ^ 32, e, f, g]
  | other => other

/-- SHA-256 compression of one 64-byte block into the running state. -/
def sha256Compress (h : List Nat) (block : List Nat) : List Nat :=
  let w := sha256Extend (blockWords block) 48
  let st := (sha256K.zip w).foldl sha256Round h
  (h.zip st).map fun p => (p.1 + p.2) % 2 ^ 32

/-- SHA-256 digest (32 bytes) of a byte string. -/
def sha256 (msg : List Nat) : List Nat :=
  let padded := sha256Pad msg
  let final := (chunkList 64 (padded.length + 1) padded).foldl sha256Compress sha256H0
  final.flatMap fun wrd => (List.range 4).map fun i => wrd >>> (8 * (3 - i)) % 256

/-! ## Lowercase hex encoding (model of Go `encoding/hex.Encode`) -/

/-- The lowercase hex digit for a nibble. -/
def hexDigit (n : Nat) : Nat := if n < 10 then 48 + n else 87 + n

/-- Lowercase hex encoding of a byte string, as ASCII bytes. -/
def hexEncode (l : List Nat) : List Nat :=
  l.flatMap fun b => [hexDigit (b / 16), hexDigit (b % 16)]

/-- Byte values of a Lean string literal, for concrete test inputs. -/
def bytesOfString (s : String) : List Nat := s.toList.map Char.toNat

/-! ## UUID parsing (model of `github.com/google/uuid`.Parse)

`uuid.Parse` accepts the canonical 36-character form, the same form
wrapped in braces or prefixed with `urn:uuid:` (case-insensitively),
and the plain 32-hex-digit form. -/

/-- Value of a hex digit byte (both cases), `none` on a non-hex byte. -/
def xtob (b : Nat) : Option Nat :=
  if 48 ≤ b && b ≤ 57 then some (b - 48)
  else if 97 ≤ b && b ≤ 102 then some (b - 87)
  else if 65 ≤ b && b ≤ 70 then some (b - 55)
  else none

/-- Decode the byte pair at offset `i` of `s` as one octet. -/
def xtobAt (s : List Nat) (i : Nat) : Option Nat :=
  match xtob (s.getD i 0), xtob (s.getD (i + 1) 0) with
  | some hi, some lo => some (hi * 16 + lo)
  | _, _ => none

/-- Collect `some` results, failing if any element is `none`. -/
def sequenceOption : List (Option Nat) → Option (List Nat)
  | [] => some []
  | none :: _ => none
  | some x :: rest => (sequenceOption rest).map fun l => x :: l

/-- ASCII lowercasing of a byte. -/
def toLowerByte (b : Nat) : Nat := if 65 ≤ b && b ≤ 90 then b + 32 else b

/-- Byte offsets of the 16 octet hex pairs in a canonical UUID string. -/
def uuidGroupOffsets : List Nat :=
  [0, 2, 4, 6, 9, 11, 14, 16, 19, 21, 24, 26, 28, 30, 32, 34]

/-- Parse the canonical 36-character body (hyphens at 8, 13, 18, 23). -/
def uuidParseCanonical (s : List Nat) : Option (List Nat) :=
  if s.getD 8 0 = 45 && s.getD 13 0 = 45 && s.getD 18 0 = 45 &&
      s.getD 23 0 = 45 then
    sequenceOption (uuidGroupOffsets.map fun i => xtobAt s i)
  else none

/-- Model of `uuid.Parse`: returns the 16 octets on success. -/
def uuidParse (s : List Nat) : Option (List Nat) :=
  if s.length = 36 then uuidParseCanonical s
  else if s.length = 36 + 9 then
    if (s.take 9).map toLowerByte = bytesOfString ("urn:uuid:") then
      uuidParseCanonical (s.drop 9)
    else none
  else if s.length = 36 + 2 then uuidParseCanonical (s.drop 1)
  else if s.length = 32 then
    sequenceOption (((List.range 16).map fun i => 2 * i).map fun i => xtobAt s i)
  else none

/-- Model of `uuid.UUID.String`: canonical lowercase form of 16 octets. -/
def uuidToString (b : List Nat) : List Nat :=
  let h := hexEncode b
  h.take 8 ++ [45] ++ (h.drop 8).take 4 ++ [45] ++ (h.drop 12).take 4 ++
    [45] ++ (h.drop 16).take 4 ++ [45] ++ h.drop 20

/-! ## Errors (`internal/errors`)

The sentinel error values of `internal/errors/errors.go` that the core
paths can return. -/

inductive GoErr
  /-- `ErrInvalidIdenPayload` -/
  | errInvalidIdenPayload
  /-- `ErrInvalidSignature` -/
  | errInvalidSignature
  /-- `ErrHashingFailed` -/
  | errHashingFailed
  /-- `ErrInvalidJwtToken` -/
  | errInvalidJwtToken
  /-- `ErrExpiredJwtToken` -/
  | errExpiredJwtToken
  /-- `ErrTokenGenerationFailed` -/
  | errTokenGenerationFailed
  /-- `ErrRouteRequiresAuth` -/
  | errRouteRequiresAuth
  /-- `ErrInvalidAuthHeader` -/
  | errInvalidAuthHeader
  /-- `ErrFileAccessDenied` -/
  | errFileAccessDenied
  /-- `ErrFileNotFound` -/
  | errFileNotFound
  /-- `ErrFailedToFetchFileNode` -/
  | errFailedToFetchFileNode
  /-- `ErrInvalidUUID` -/
  | errInvalidUUID
  /-- `ErrRndQueryNotProvided` -/
  | errRndQueryNotProvided
  /-- an error produced by an external library (e.g. a dial failure) -/
  | libraryErr (tag : Nat)
  deriving DecidableEq, Repr

/-- HTTP status codes of the proxy error mapping (`mpe` table):
`GetStatusErr(err).HttpCode()`. -/
def errHttpCode : GoErr → Nat
  | .errInvalidIdenPayload => 400
  | .errInvalidSignature => 401
  | .errHashingFailed => 500
  | .errInvalidJwtToken => 401
  | .errExpiredJwtToken => 401
  | .errTokenGenerationFailed => 500
  | .errRouteRequiresAuth => 401
  | .errInvalidAuthHeader => 401
  | .errFileAccessDenied => 401
  | .errFileNotFound => 404
  | .errFailedToFetchFileNode => 500
  | .errInvalidUUID => 400
  | .errRndQueryNotProvided => 400
  | .libraryErr _ => 500

/-! ## Wire codec data type (`internal/transport/transport.go`) -/

/-- `transport.RequestTypeRead` -/
def RequestTypeRead : Nat := 1
/-- `transport.RequestTypeWrite` -/
def RequestTypeWrite : Nat := 2

/-- `transport.IdenPayload`: the TCP handshake message.  The Go field
`Type` (a `uint8` `RequestType`) is called `Typ` here because `Type` is
reserved in Lean; a well-formed value keeps it below 256. -/
structure IdenPayload where
  ID : List Nat
  Random : List Nat
  Token : List Nat
  Typ : Nat
  deriving DecidableEq, Repr

/-! ## Signature engine

`generateSignature` is the proxy-side mint
(`cmd/proxy/server/models.go`); `validateIden` is the node-side check
on the TCP path (`cmd/node/tcp/iden.go`); the node's HTTP header check
is in `cmd/node/server/auth_extractors.go`.  The rotating shared secret
(`config.GetConfig().Key` / `GetKey()`) is passed explicitly. -/

/-- Proxy-side `generateSignature(rnd)`: lowercase hex SHA-256 of
`rnd || key`. -/
def generateSignature (key rnd : List Nat) : List Nat :=
  hexEncode (sha256 (rnd ++ key))

/-- Node-side `validateIden`: the ID must parse as a UUID and the token
must equal the digest of `Random || key`. -/
def validateIden (key : List Nat) (iden : IdenPayload) : Except GoErr Unit :=
  if (uuidParse iden.ID).isNone then .error .errInvalidIdenPayload
  else
    let hexBuf := hexEncode (sha256 (iden.Random ++ key))
    if hexBuf ≠ iden.Token then .error .errInvalidSignature
    else .ok ()

/-! ## Wire codec (`internal/transport/transport.go`, `encoding/gob`)

`IdenPayload.Encode` and `DecodeIdenPayload` run `encoding/gob` with a
fresh encoder/decoder per call.  The model reproduces gob's value
encoding for this struct: the variable-length unsigned-integer
encoding, the length-prefixed string encoding, the struct encoding
(delta-encoded field numbers, omission of zero-valued fields, a zero
delta as terminator, a range check when a `uint` lands in a `uint8`
field), and the byte-count framing of the value message.  The
type-descriptor messages that a fresh encoder writes before the value
message (a constant for this type, consumed symmetrically by a fresh
decoder before the value) are elided.  Bytes after the decoded message
are ignored, as in gob — the node hands the decoder its whole 1 KiB
read buffer. -/

/-- Minimal big-endian byte representation (fueled; 8 bytes cover the
`uint64` range gob transmits). -/
def natBytesBEAux : Nat → Nat → List Nat
  | 0, _ => []
  | _, 0 => []
  | fuel + 1, n => natBytesBEAux fuel (n / 256) ++ [n % 256]

/-- Minimal big-endian bytes of an unsigned value. -/
def natBytesBE (n : Nat) : List Nat := natBytesBEAux 8 n

/-- gob unsigned-integer encoding: one byte below 128, otherwise a
byte-count marker followed by big-endian bytes. -/
def gobEncUint (n : Nat) : List Nat :=
  if n < 128 then [n] else (256 - (natBytesBE n).length) :: natBytesBE n

/-- gob signed-integer encoding: low bit is the sign flag. -/
def gobEncInt (i : Int) : List Nat :=
  gobEncUint (if i < 0 then 2 * (-i).toNat - 1 else 2 * i.toNat)

/-- gob string encoding: unsigned length, then the bytes. -/
def gobEncString (s : List Nat) : List Nat := gobEncUint s.length ++ s

/-- gob unsigned-integer decoding; fails on a truncated buffer or a
byte-count marker above 8. -/
def gobDecUint : List Nat → Option (Nat × List Nat)
  | [] => none
  | b :: rest =>
    if b < 128 then some (b, rest)
    else
      let cnt := 256 - b
      if 8 < cnt then none
      else if rest.length < cnt then none
      else some ((rest.take cnt).foldl (fun acc x => acc * 256 + x) 0, rest.drop cnt)

/-- gob signed-integer decoding. -/
def gobDecInt (b : List Nat) : Option (Int × List Nat) :=
  (gobDecUint b).map fun pr =>
    (if pr.1 % 2 = 1 then -(((pr.1 / 2 : Nat) : Int)) - 1 else ((pr.1 / 2 : Nat) : Int),
     pr.2)

/-- gob string decoding. -/
def gobDecBytes (b : List Nat) : Option (List Nat × List Nat) :=
  match gobDecUint b with
  | none => none
  | some (len, rest) =>
    if rest.length < len then none else some (rest.take len, rest.drop len)

/-- The non-zero fields of an `IdenPayload` with their gob field numbers
and encoded payloads (`ID` is field 0, `Random` 1, `Token` 2, `Typ` 3;
gob omits zero-valued fields). -/
def idenFieldList (p : IdenPayload) : List (Nat × List Nat) :=
  (if p.ID = [] then [] else [(0, gobEncString p.ID)]) ++
  (if p.Random = [] then [] else [(1, gobEncString p.Random)]) ++
  (if p.Token = [] then [] else [(2, gobEncString p.Token)]) ++
  (if p.Typ = 0 then [] else [(3, gobEncUint p.Typ)])

/-- gob struct-body encoding: field-number deltas (tracked as
`last field number + 1`, starting at 0) and a zero terminator. -/
def encodeFields (fields : List (Nat × List Nat)) : List Nat :=
  (fields.foldl
    (fun (acc : List Nat × Nat) f =>
      (acc.1 ++ gobEncUint (f.1 + 1 - acc.2) ++ f.2, f.1 + 1))
    ([], 0)).1 ++ [0]

/-- The gob type id a fresh encoder assigns to the first user-defined
type in its stream (`firstUserId + 1`). -/
def idenTypeId : Int := 65

/-- `IdenPayload.Encode`: the framed gob value message. -/
def IdenPayload.Encode (p : IdenPayload) : List Nat :=
  let body := gobEncInt idenTypeId ++ encodeFields (idenFieldList p)
  gobEncUint body.length ++ body

/-- One pass of gob struct decoding for `IdenPayload`: reads a field
delta, stops on the zero terminator, decodes the addressed field, and
fails on a field number above 3 or a `Typ` value that overflows
`uint8`.  `fn1` is `field number + 1` (starting at 0); field numbers
grow strictly, so six steps of fuel are exact for every input. -/
def decodeIdenFields : Nat → IdenPayload → Nat → List Nat → Option IdenPayload
  | 0, _, _, _ => none
  | fuel + 1, p, fn1, b =>
    (gobDecUint b).bind fun du =>
      if du.1 = 0 then some p
      else
        let fn1' := fn1 + du.1
        if fn1' = 1 then
          (gobDecBytes du.2).bind fun sv =>
            decodeIdenFields fuel { p with ID := sv.1 } fn1' sv.2
        else if fn1' = 2 then
          (gobDecBytes du.2).bind fun sv =>
            decodeIdenFields fuel { p with Random := sv.1 } fn1' sv.2
        else if fn1' = 3 then
          (gobDecBytes du.2).bind fun sv =>
            decodeIdenFields fuel { p with Token := sv.1 } fn1' sv.2
        else if fn1' = 4 then
          (gobDecUint du.2).bind fun uv =>
            if 255 < uv.1 then none
            else decodeIdenFields fuel { p with Typ := uv.1 } fn1' uv.2
        else none

/-- `transport.DecodeIdenPayload`: unframe the value message, check the
type id, and decode the struct body into a zero-valued payload. -/
def DecodeIdenPayload (b : List Nat) : Option IdenPayload :=
  (gobDecUint b).bind fun fr =>
    if fr.2.length < fr.1 then none
    else
      (gobDecInt (fr.2.take fr.1)).bind fun ti =>
        if ti.1 = idenTypeId then decodeIdenFields 6 ⟨[], [], [], 0⟩ 0 ti.2
        else none

/-- A decoded gob struct field, for reasoning about the codec: a string
field or an unsigned field at a given field number. -/
inductive GobField
  | strF (idx : Nat) (s : List Nat)
  | uintF (idx : Nat) (v : Nat)
  deriving DecidableEq, Repr

/-- The field number of a `GobField`. -/
def GobField.idx : GobField → Nat
  | .strF i _ => i
  | .uintF i _ => i

/-- The gob payload encoding of a `GobField`. -/
def GobField.enc : GobField → List Nat
  | .strF _ s => gobEncString s
  | .uintF _ v => gobEncUint v

/-- The struct-body bytes of a field sequence, starting from
`last field number + 1 = fn1`. -/
def encodeFieldSeq (fn1 : Nat) : List GobField → List Nat
  | [] => [0]
  | f :: rest => gobEncUint (f.idx + 1 - fn1) ++ f.enc ++ encodeFieldSeq (f.idx + 1) rest

/-- Apply a decoded field to an `IdenPayload` under construction. -/
def applyGobField (p : IdenPayload) : GobField → IdenPayload
  | .strF 0 s => { p with ID := s }
  | .strF 1 s => { p with Random := s }
  | .strF 2 s => { p with Token := s }
  | .uintF 3 v => { p with Typ := v }
  | _ => p

/-- A field the `IdenPayload` decoder accepts. -/
def GobField.fieldWf : GobField → Prop
  | .strF i s => i < 3 ∧ s.length < 2 ^ 64
  | .uintF i v => i = 3 ∧ v < 256

/-- Fields in strictly increasing field-number order from `fn1` on,
each acceptable to the decoder. -/
def fieldsChain : Nat → List GobField → Prop
  | _, [] => True
  | fn1, f :: rest => fn1 ≤ f.idx ∧ f.fieldWf ∧ fieldsChain (f.idx + 1) rest

/-- The non-zero fields of a payload as decoded field values
(mirroring `idenFieldList`). -/
def gobFieldsOf (p : IdenPayload) : List GobField :=
  (if p.ID = [] then [] else [.strF 0 p.ID]) ++
  (if p.Random = [] then [] else [.strF 1 p.Random]) ++
  (if p.Token = [] then [] else [.strF 2 p.Token]) ++
  (if p.Typ = 0 then [] else [.uintF 3 p.Typ])

/-- Well-formed `IdenPayload`: fields are byte strings of the sizes the
Go types allow (`Typ` is a `uint8`; gob transmits lengths as `uint64`,
and the strings the system sends are far below that). -/
def IdenPayload.wf (p : IdenPayload) : Prop :=
  (∀ b ∈ p.ID, b < 256) ∧ (∀ b ∈ p.Random, b < 256) ∧
  (∀ b ∈ p.Token, b < 256) ∧ p.Typ < 256 ∧
  p.ID.length < 2 ^ 32 ∧ p.Random.length < 2 ^ 32 ∧ p.Token.length < 2 ^ 32

instance (p : IdenPayload) : Decidable p.wf := by
  unfold IdenPayload.wf; infer_instance

/-! ## Node TCP connection handling (`cmd/node/tcp/server.go`)

`Server.Handle` decodes the handshake, validates it, and dispatches on
the request type; every rejection closes the connection silently.  (The
`validate.Struct` call between decode and `validateIden` logs but does
not return on error, and the struct carries no validation tags, so it
never changes the outcome.) -/

/-- The observable outcome of `Server.Handle` on one connection. -/
inductive HandleOutcome
  /-- decode failed: log and close, no response -/
  | decodeFailed
  /-- `validateIden` failed: close silently -/
  | rejected (e : GoErr)
  /-- dispatched to `HandleRead` -/
  | readReq (iden : IdenPayload)
  /-- dispatched to `HandleWrite` -/
  | writeReq (iden : IdenPayload)
  /-- `default` branch of the type switch: log and close -/
  | invalidType (iden : IdenPayload)
  deriving DecidableEq, Repr

/-- `Server.Handle` after the socket read: decode, validate, dispatch. -/
def serverHandle (key : List Nat) (buf : List Nat) : HandleOutcome :=
  match DecodeIdenPayload buf with
  | none => .decodeFailed
  | some iden =>
    match validateIden key iden with
    | .error e => .rejected e
    | .ok _ =>
      if iden.Typ = RequestTypeRead then .readReq iden
      else if iden.Typ = RequestTypeWrite then .writeReq iden
      else .invalidType iden

/-! ## Node HTTP signature check (`cmd/node/server/auth_extractors.go`) -/

/-- Model of Go `strings.Split(s, " ")`: split on every single space. -/
def splitOnSpace : List Nat → List (List Nat)
  | [] => [[]]
  | b :: rest =>
    let r := splitOnSpace rest
    if b = 32 then [] :: r
    else
      match r with
      | h :: t => (b :: h) :: t
      | [] => [[b]]

/-- The parsed `Authorization` header of the node server. -/
structure NodeAuthHeader where
  SigningType : List Nat
  Token : List Nat
  deriving DecidableEq, Repr

/-- `Server.ExtractAuthorizationHeader` on the node: absent header is
`none`; a present header must split into exactly two words. -/
def extractAuthorizationHeader (header : Option (List Nat)) :
    Except GoErr (Option NodeAuthHeader) :=
  match header with
  | none => .ok none
  | some h =>
    match splitOnSpace h with
    | [a, b] => .ok (some ⟨a, b⟩)
    | _ => .error .errInvalidAuthHeader

/-- `Server.ExtractSignatureAuthorization`: requires a two-word header
and compares its second word with the digest of `p || key`.  The first
word (the scheme) is never inspected. -/
def extractSignatureAuthorization (key : List Nat)
    (header : Option (List Nat)) (p : List Nat) : Except GoErr Unit :=
  match extractAuthorizationHeader header with
  | .error e => .error e
  | .ok none => .error .errRouteRequiresAuth
  | .ok (some ah) =>
    let hexBuf := hexEncode (sha256 (p ++ key))
    if hexBuf ≠ ah.Token then .error .errInvalidSignature
    else .ok ()

/-! ## Credential service (`cmd/proxy/repository/auth`)

The JWT layer (`github.com/golang-jwt/jwt/v5`) is modelled
symbolically: a token value records the signing method its header
declares, the key material that produced its signature, and its claim
set; the base64/JSON compact serialization is elided, so the decoders
take post-parse token values.  `jwt.ParseWithClaims` (v5) runs the key
function on the header method, verifies the signature with the returned
key, and then validates the claims itself: the default validator always
checks the expiration time obtained from `GetExpirationTime`, and —
because both payload types implement `Validate() error` — also invokes
the claims' own validation through the `ClaimsValidator` interface.
Any failure makes `ParseWithClaims` return a non-nil error. -/

/-- The signing method declared by a token header.  `hs256`–`hs512` are
the `*jwt.SigningMethodHMAC` instances (the type the access-token key
function asserts); `eddsa` is `*jwt.SigningMethodEd25519`. -/
inductive SigningMethod
  | hs256
  | hs384
  | hs512
  | eddsa
  | noAlg
  | otherAlg (tag : Nat)
  deriving DecidableEq, Repr

/-- The Go type assertion `token.Method.(*jwt.SigningMethodHMAC)`. -/
def SigningMethod.isHMAC : SigningMethod → Bool
  | .hs256 | .hs384 | .hs512 => true
  | _ => false

/-- The Go type assertion `token.Method.(*jwt.SigningMethodEd25519)`. -/
def SigningMethod.isEd25519 : SigningMethod → Bool
  | .eddsa => true
  | _ => false

/-- Key material: the HMAC secret is its byte value; an Ed25519 key
pair is identified symbolically by the id shared between the private
and the public half. -/
inductive KeyMaterial
  | hmacKey (k : List Nat)
  | edPrivKey (id : Nat)
  | edPubKey (id : Nat)
  deriving DecidableEq, Repr

/-- A JWT value with claim set `C`, as the parser sees it. -/
structure JwtToken (C : Type) where
  method : SigningMethod
  signKey : KeyMaterial
  claims : C
  deriving DecidableEq, Repr

/-- The same compact token handed to a decoder for a different claim
shape: method and signature are unchanged, the claim JSON is re-read
as `B`. -/
def JwtToken.withClaims {A B : Type} (tok : JwtToken A) (c : B) : JwtToken B :=
  { method := tok.method, signKey := tok.signKey, claims := c }

/-- `method.Verify` with the key the key function returned, against a
signature produced with `signKey`: an HMAC signature verifies under the
same secret, an Ed25519 signature under the public half of its pair. -/
def keysMatch : SigningMethod → KeyMaterial → KeyMaterial → Bool
  | .hs256, .hmacKey k, .hmacKey k2 => k == k2
  | .hs384, .hmacKey k, .hmacKey k2 => k == k2
  | .hs512, .hmacKey k, .hmacKey k2 => k == k2
  | .eddsa, .edPubKey i, .edPrivKey j => i == j
  | _, _, _ => false

/-- How `jwt.ParseWithClaims` can fail. -/
inductive JwtParseErr
  | keyFuncErr (e : GoErr)
  | sigInvalid
  | invalidClaims
  deriving DecidableEq, Repr

/-- Model of `jwt.ParseWithClaims` (v5): key function, signature
verification, then claim validation (library `exp` check — strict
`now.Before(exp)` — plus the claims' own `ClaimsValidator.Validate`).
A successful result is a valid token (`err == nil && token.Valid`). -/
def parseWithClaims {C : Type} (getExp : C → Int)
    (customValidate : C → Except GoErr Unit) (now : Int) (tok : JwtToken C)
    (keyFunc : SigningMethod → Except GoErr KeyMaterial) :
    Except JwtParseErr (JwtToken C) :=
  match keyFunc tok.method with
  | .error e => .error (.keyFuncErr e)
  | .ok key =>
    if keysMatch tok.method key tok.signKey then
      if getExp tok.claims ≤ now then .error .invalidClaims
      else
        match customValidate tok.claims with
        | .error _ => .error .invalidClaims
        | .ok _ => .ok tok
    else .error .sigInvalid

/-- `auth.UserJwtPayload` (claim names `sub`, `email`, `exp`, `iat`,
`role`); `dba.UserRole` is an opaque enum tag here. -/
structure UserJwtPayload where
  UserID : List Nat
  Email : List Nat
  ExpiryDate : Int
  IssuedAt : Int
  Role : Nat
  deriving DecidableEq, Repr

/-- `auth.FileAccessJwtPayload` (claim names `sub`, `exp`, `iat`,
`perm`); `Permission` carries the `FileAccessPerm` bit flags
(Read = 1, Write = 2). -/
structure FileAccessJwtPayload where
  FileID : List Nat
  ExpiryDate : Int
  IssuedAt : Int
  Permission : Nat
  deriving DecidableEq, Repr

/-- `FileAccessPermRead` -/
def FileAccessPermRead : Nat := 1
/-- `FileAccessPermWrite` -/
def FileAccessPermWrite : Nat := 2

/-- `UserJwtPayload.Validate`: the struct has no validator tags, so
`validate.Struct` always passes; then the expiry check. -/
def UserJwtPayload.Validate (now : Int) (p : UserJwtPayload) :
    Except GoErr Unit :=
  if p.ExpiryDate < now then .error .errExpiredJwtToken else .ok ()

/-- `FileAccessJwtPayload.Validate`: same shape as the user payload. -/
def FileAccessJwtPayload.Validate (now : Int) (p : FileAccessJwtPayload) :
    Except GoErr Unit :=
  if p.ExpiryDate < now then .error .errExpiredJwtToken else .ok ()

/-- The claim JSON of a file-access token re-read as a user payload:
`sub`, `exp`, `iat` coincide; `email` and `role` are absent and stay at
their zero values. -/
def FileAccessJwtPayload.asUserClaims (c : FileAccessJwtPayload) :
    UserJwtPayload :=
  { UserID := c.FileID, Email := [], ExpiryDate := c.ExpiryDate,
    IssuedAt := c.IssuedAt, Role := 0 }

/-- The claim JSON of a user token re-read as a file-access payload. -/
def UserJwtPayload.asFileClaims (c : UserJwtPayload) :
    FileAccessJwtPayload :=
  { FileID := c.UserID, ExpiryDate := c.ExpiryDate,
    IssuedAt := c.IssuedAt, Permission := 0 }

/-- `auth.Options`: the two independent signing keys.  The Ed25519 pair
is identified by `JwtEdDSAKeyId`. -/
structure AuthOptions where
  UserTokenDuration : Int
  JwtHmacKey : List Nat
  JwtEdDSAKeyId : Nat
  deriving DecidableEq, Repr

/-- `accessTokenKeyFunc`: accepts any `*jwt.SigningMethodHMAC` method
and returns the symmetric key; rejects everything else. -/
def accessTokenKeyFunc (as : AuthOptions) (m : SigningMethod) :
    Except GoErr KeyMaterial :=
  if m.isHMAC then .ok (.hmacKey as.JwtHmacKey)
  else .error .errInvalidJwtToken

/-- `userTokenKeyFunc`: accepts only `*jwt.SigningMethodEd25519` and
returns the public key; rejects everything else. -/
def userTokenKeyFunc (as : AuthOptions) (m : SigningMethod) :
    Except GoErr KeyMaterial :=
  if m.isEd25519 then .ok (.edPubKey as.JwtEdDSAKeyId)
  else .error .errInvalidJwtToken

/-- `AuthService.EncodeFileAccessToken`: sign the claims with
`simSigning = jwt.SigningMethodHS256` and the symmetric key. -/
def EncodeFileAccessToken (as : AuthOptions)
    (claims : FileAccessJwtPayload) : JwtToken FileAccessJwtPayload :=
  { method := .hs256, signKey := .hmacKey as.JwtHmacKey, claims := claims }

/-- `AuthService.EncodeUserToken`: sign the claims with
`asimSigning = jwt.SigningMethodEdDSA` and the private key. -/
def EncodeUserToken (as : AuthOptions) (claims : UserJwtPayload) :
    JwtToken UserJwtPayload :=
  { method := .eddsa, signKey := .edPrivKey as.JwtEdDSAKeyId,
    claims := claims }

/-- `AuthService.DecodeFileAccessToken`: any `ParseWithClaims` failure
collapses to `ErrInvalidJwtToken`; a parsed token is validated once
more with the payload's own `Validate`. -/
def DecodeFileAccessToken (as : AuthOptions) (now : Int)
    (payload : JwtToken FileAccessJwtPayload) :
    Except GoErr FileAccessJwtPayload :=
  match parseWithClaims FileAccessJwtPayload.ExpiryDate
      (FileAccessJwtPayload.Validate now) now payload
      (accessTokenKeyFunc as) with
  | .error _ => .error .errInvalidJwtToken
  | .ok token =>
    match FileAccessJwtPayload.Validate now token.claims with
    | .error e => .error e
    | .ok _ => .ok token.claims

/-- `AuthService.DecodeUserToken`: same shape with the asymmetric key
function. -/
def DecodeUserToken (as : AuthOptions) (now : Int)
    (payload : JwtToken UserJwtPayload) : Except GoErr UserJwtPayload :=
  match parseWithClaims UserJwtPayload.ExpiryDate
      (UserJwtPayload.Validate now) now payload (userTokenKeyFunc as) with
  | .error _ => .error .errInvalidJwtToken
  | .ok token =>
    match UserJwtPayload.Validate now token.claims with
    | .error e => .error e
    | .ok _ => .ok token.claims

/-- `AuthService.CreateFileAccessToken`: build the claims with
`iat = now`, `exp = now + duration` and sign them. -/
def CreateFileAccessToken (as : AuthOptions) (now : Int)
    (fileId : List Nat) (permission : Nat) (duration : Int) :
    JwtToken FileAccessJwtPayload :=
  EncodeFileAccessToken as
    { FileID := fileId, ExpiryDate := now + duration, IssuedAt := now,
      Permission := permission }

/-! ## Proxy file router (`cmd/proxy/server`)

`HandleGetFile` and `ExtractFileAuthorization` over a request model:
the `Authorization` header is modelled post-split (scheme word plus
token value) and the `access_token` query value post-parse.  The
catalog lookup `GetFileAndNodeInfo` is a parameter keyed by the
canonical string of the parsed file UUID, `none` covering both a
missing row and a query error (the code maps both to
`ErrFileNotFound`).  The outcome of the single dial/request each
transport helper makes is a parameter; `mime.ExtensionsByType` (used
only for the download file name) is a parameter returning `[]` on
error. -/

/-- The proxy's parsed `Authorization` header. -/
structure ProxyAuthHeader where
  SigningType : List Nat
  Token : JwtToken UserJwtPayload
  deriving DecidableEq, Repr

/-- A request to `GET /files/{id}`. -/
structure ProxyRequest where
  header : Option ProxyAuthHeader
  accessTokenQuery : Option (JwtToken FileAccessJwtPayload)
  deriving DecidableEq, Repr

/-- `server.FileAuthorization`. -/
structure FileAuthorization where
  IsSignedToken : Bool
  IsUserToken : Bool
  UserID : List Nat
  TokenPerm : Nat
  deriving DecidableEq, Repr

/-- `Server.ExtractFileAuthorization`: no header ⇒ the query token must
decode and its `sub` must equal the requested file id; a header must
carry the `Bearer` scheme and a decodable user token. -/
def ExtractFileAuthorization (as : AuthOptions) (now : Int)
    (req : ProxyRequest) (fileId : List Nat) :
    Except GoErr FileAuthorization :=
  match req.header with
  | none =>
    match req.accessTokenQuery with
    | none => .error .errRouteRequiresAuth
    | some tok =>
      match DecodeFileAccessToken as now tok with
      | .error e => .error e
      | .ok claims =>
        if claims.FileID ≠ fileId then .error .errFileAccessDenied
        else .ok ⟨true, false, [], claims.Permission⟩
  | some ah =>
    if ah.SigningType = bytesOfString ("Bearer") then
      match DecodeUserToken as now ah.Token with
      | .error e => .error e
      | .ok claims => .ok ⟨false, true, claims.UserID, 0⟩
    else .error .errInvalidAuthHeader

/-- `dba.GetFileAndNodeInfoRow`: the catalog record for a file and its
node.  UUID columns hold their 16 octets; `NodeTCPPort` models the
`pgtype.Int4` with its `Valid` flag. -/
structure GetFileAndNodeInfoRow where
  ID : List Nat
  UserId : List Nat
  Checksum : List Nat
  ContentType : List Nat
  Name : List Nat
  NodeAddress : List Nat
  NodePort : Nat
  NodeTCPPort : Option Nat
  NodeSSL : Bool
  NodeId : List Nat
  deriving DecidableEq, Repr

/-- Outcome of the single TCP dial + handshake write
`handleGetFileTCP` performs. -/
inductive TcpFetchOutcome
  | dialError
  | writeError
  | connected (stream : List Nat)
  deriving DecidableEq, Repr

/-- Outcome of the single HTTP request `handleGetFileHttp` performs. -/
inductive HttpFetchOutcome
  | connError (tag : Nat)
  | response (status : Nat) (body : List Nat)
  deriving DecidableEq, Repr

/-- `Server.handleGetFileTCP` (outcome of its one attempt): a dial or
handshake-write failure is mapped to `ErrFailedToFetchFileNode`; on
success the open socket is the body stream.  The nonce minting and
handshake construction it performs are the `randomString` /
`generateSignature` / `IdenPayload.Encode` functions modelled above. -/
def handleGetFileTCP (outcome : TcpFetchOutcome) :
    Except GoErr (Option (List Nat)) :=
  match outcome with
  | .dialError => .error .errFailedToFetchFileNode
  | .writeError => .error .errFailedToFetchFileNode
  | .connected s => .ok (some s)

/-- `Server.handleGetFileHttp` (outcome of its one attempt): a
transport error from `client.Do` is returned as-is; on a non-200
response the function executes `return nil, err` while `err` is still
`nil`, so it yields a nil reader and a nil error; on 200 the body is
the stream. -/
def handleGetFileHttp (outcome : HttpFetchOutcome) :
    Except GoErr (Option (List Nat)) :=
  match outcome with
  | .connError tag => .error (.libraryErr tag)
  | .response status body =>
    if status ≠ 200 then .ok none else .ok (some body)

/-- `sanitizeFileName`'s dot scan: `len(name) > 2` and a `.` at any
position from 1 to the end. -/
def hasDotSuffix (name : List Nat) : Bool :=
  2 < name.length && (name.drop 1).contains 46

/-- `server.sanitizeFileName`: keep a name with an extension dot,
otherwise append the first extension `mime.ExtensionsByType` offers
(prefixing a `.` if it lacks one). -/
def sanitizeFileName (mimeExts : List Nat → List (List Nat))
    (name contentType : List Nat) : List Nat :=
  if hasDotSuffix name then name
  else
    match mimeExts contentType with
    | [] => name
    | ext :: _ =>
      let ext2 := if ext ≠ [] && ext.headD 0 ≠ 46 then 46 :: ext else ext
      name ++ ext2

/-- The caller-visible outcome of `Server.HandleGetFile`: a structured
error, or response headers plus the body stream (`none` is a nil
stream). -/
inductive GetFileResponse
  | errorResp (e : GoErr)
  | fileResp (checksum contentType filename : List Nat)
      (stream : Option (List Nat))
  deriving DecidableEq, Repr

/-- `Server.HandleGetFile`: authorize, parse the id, look up the
catalog, enforce ownership for user tokens, pick the transport by the
`NodeTCPPort.Valid` flag, and stream with the catalog metadata as
headers. -/
def HandleGetFile (as : AuthOptions) (now : Int)
    (lookup : List Nat → Option GetFileAndNodeInfoRow)
    (tcpOutcome : TcpFetchOutcome) (httpOutcome : HttpFetchOutcome)
    (mimeExts : List Nat → List (List Nat)) (req : ProxyRequest)
    (fileId : List Nat) : GetFileResponse :=
  match ExtractFileAuthorization as now req fileId with
  | .error e => .errorResp e
  | .ok perm =>
    match uuidParse fileId with
    | none => .errorResp .errInvalidUUID
    | some fileUUID =>
      match lookup (uuidToString fileUUID) with
      | none => .errorResp .errFileNotFound
      | some info =>
        if perm.IsUserToken && perm.UserID ≠ uuidToString info.UserId then
          .errorResp .errFileAccessDenied
        else
          let fetched :=
            match info.NodeTCPPort with
            | some _ => handleGetFileTCP tcpOutcome
            | none => handleGetFileHttp httpOutcome
          match fetched with
          | .error e => .errorResp e
          | .ok reader =>
            .fileResp info.Checksum info.ContentType
              (sanitizeFileName mimeExts info.Name info.ContentType) reader

/-! ## Node TCP write handler (`cmd/node/tcp/handlers.go`) -/

/-- The node's local disk: a map from path to file content. -/
def FileSystem := List Nat → Option (List Nat)

/-- `os.Create` / a completed copy: the path now holds `content`. -/
def fsSet (fs : FileSystem) (path content : List Nat) : FileSystem :=
  fun q => if q = path then some content else fs q

/-- `os.Remove`. -/
def fsRemove (fs : FileSystem) (path : List Nat) : FileSystem :=
  fun q => if q = path then none else fs q

/-- `<data_dir>/<id>`. -/
def dataPath (dataDir id : List Nat) : List Nat := dataDir ++ [47] ++ id

/-- How `io.Copy(file, conn)` ends: the peer's EOF after `content` was
copied, or an I/O error after `written` bytes landed in the file. -/
inductive CopyOutcome
  | eofAfter (content : List Nat)
  | ioErrorAfter (written : List Nat)
  deriving DecidableEq, Repr

/-- `Server.HandleWrite`: create `<data_dir>/<id>` (a failed create
just logs and returns), copy the socket into it, and on a copy error
remove the file. -/
def HandleWrite (fs : FileSystem) (dataDir : List Nat)
    (iden : IdenPayload) (createOk : Bool) (copy : CopyOutcome) :
    FileSystem :=
  if createOk then
    let path := dataPath dataDir iden.ID
    let fs1 := fsSet fs path []
    match copy with
    | .eofAfter content => fsSet fs1 path content
    | .ioErrorAfter written => fsRemove (fsSet fs1 path written) path
  else fs

/-! ## Lemmas about the gob codec -/

lemma natBytesBEAux_len (fuel : Nat) : ∀ n, (natBytesBEAux fuel n).length ≤ fuel := by
  induction fuel with
  | zero => intro n; simp [natBytesBEAux]
  | succ k ih =>
    intro n
    cases n with
    | zero => simp [natBytesBEAux]
    | succ m =>
      have := ih ((m + 1) / 256)
      simp [natBytesBEAux]
      omega

lemma natBytesBEAux_foldl (fuel : Nat) : ∀ n acc, n < 256 ^ fuel →
    (natBytesBEAux fuel n).foldl (fun a x => a * 256 + x) acc =
      acc * 256 ^ (natBytesBEAux fuel n).length + n := by
  induction fuel with
  | zero =>
    intro n acc hn
    have : n = 0 := by simpa using hn
    simp [this, natBytesBEAux]
  | succ k ih =>
    intro n acc hn
    cases n with
    | zero => simp [natBytesBEAux]
    | succ m =>
      have hdiv : (m + 1) / 256 < 256 ^ k := by
        have h2 : 256 ^ (k + 1) = 256 ^ k * 256 := by ring
        exact Nat.div_lt_of_lt_mul (by omega)
      simp only [natBytesBEAux, List.foldl_append, List.length_append,
        List.length_cons, List.length_nil, List.foldl_cons, List.foldl_nil]
      rw [ih _ _ hdiv, pow_succ, ← mul_assoc]
      have hmod := Nat.div_add_mod (m + 1) 256
      generalize acc * 256 ^ (natBytesBEAux k ((m + 1) / 256)).length = A
      omega

lemma take_len_append {α : Type} (l r : List α) : (l ++ r).take l.length = l := by
  simp [List.take_append]

lemma drop_len_append {α : Type} (l r : List α) : (l ++ r).drop l.length = r := by
  simp [List.drop_append]

lemma natBytesBE_pos (n : Nat) (hn : n ≠ 0) : 1 ≤ (natBytesBE n).length := by
  cases n with
  | zero => omega
  | succ m => simp [natBytesBE, natBytesBEAux]

lemma encUint_len_le (n : Nat) : (gobEncUint n).length ≤ 9 := by
  unfold gobEncUint
  split
  · simp
  · have := natBytesBEAux_len 8 n
    simp [natBytesBE] at this ⊢
    omega

lemma gobDecUint_encUint (n : Nat) (rest : List Nat) (hn : n < 2 ^ 64) :
    gobDecUint (gobEncUint n ++ rest) = some (n, rest) := by
  by_cases h : n < 128
  · simp [gobEncUint, h, gobDecUint]
  · have hlen8 : (natBytesBE n).length ≤ 8 := natBytesBEAux_len 8 n
    have hlen1 : 1 ≤ (natBytesBE n).length := natBytesBE_pos n (by omega)
    simp only [gobEncUint, h, if_neg, if_false, List.cons_append]
    unfold gobDecUint
    have hb : ¬ (256 - (natBytesBE n).length < 128) := by omega
    have hcnt : 256 - (256 - (natBytesBE n).length) = (natBytesBE n).length := by
      omega
    have h8 : ¬ (8 < (natBytesBE n).length) := by omega
    have hge : ¬ ((natBytesBE n ++ rest).length < (natBytesBE n).length) := by
      simp [List.length_append]
    have hfold := natBytesBEAux_foldl 8 n 0 (by
      have : (256 : Nat) ^ 8 = 2 ^ 64 := by norm_num
      omega)
    simp only [hb, if_false, hcnt, h8, hge, take_len_append, drop_len_append]
    simp [natBytesBE] at hfold
    simp [natBytesBE, hfold]

lemma gobDecBytes_encString (s rest : List Nat) (hs : s.length < 2 ^ 64) :
    gobDecBytes (gobEncString s ++ rest) = some (s, rest) := by
  unfold gobDecBytes gobEncString
  rw [List.append_assoc, gobDecUint_encUint s.length (s ++ rest) hs]
  have hge : ¬ ((s ++ rest).length < s.length) := by simp [List.length_append]
  simp [hge, take_len_append, drop_len_append]

lemma decode_encodeFieldSeq (l : List GobField) : ∀ (fuel fn1 : Nat) (p : IdenPayload),
    l.length < fuel → fieldsChain fn1 l →
    decodeIdenFields fuel p fn1 (encodeFieldSeq fn1 l) =
      some (l.foldl applyGobField p) := by
  induction l with
  | nil =>
    intro fuel fn1 p hlen _
    cases fuel with
    | zero => omega
    | succ k => simp [encodeFieldSeq, decodeIdenFields, gobDecUint]
  | cons f rest ih =>
    intro fuel fn1 p hlen hchain
    obtain ⟨hle, hwf, hchain2⟩ := hchain
    cases fuel with
    | zero => omega
    | succ k =>
      have hrest : rest.length < k := by simpa using hlen
      cases f with
      | strF i s =>
        simp only [GobField.fieldWf] at hwf
        obtain ⟨hi, hs⟩ := hwf
        simp only [GobField.idx] at hle
        have hd64 : i + 1 - fn1 < 2 ^ 64 := by omega
        have hd0 : ¬ (i + 1 - fn1 = 0) := by omega
        have hfn : fn1 + (i + 1 - fn1) = i + 1 := by omega
        simp only [encodeFieldSeq, GobField.idx, GobField.enc, List.append_assoc]
        simp only [decodeIdenFields, gobDecUint_encUint _ _ hd64, Option.some_bind]
        simp only [hd0, if_false, hfn]
        interval_cases i
        · simp only [List.foldl_cons, applyGobField]
          simp only [show (0 : Nat) + 1 = 1 from rfl, if_true,
            gobDecBytes_encString s _ hs, Option.some_bind]
          exact ih k 1 { p with ID := s } hrest hchain2
        · simp only [List.foldl_cons, applyGobField]
          have h1 : ¬ ((1 : Nat) + 1 = 1) := by omega
          simp only [h1, if_false, show (1 : Nat) + 1 = 2 from rfl, if_true,
            gobDecBytes_encString s _ hs, Option.some_bind]
          exact ih k 2 { p with Random := s } hrest hchain2
        · simp only [List.foldl_cons, applyGobField]
          have h1 : ¬ ((2 : Nat) + 1 = 1) := by omega
          have h2 : ¬ ((2 : Nat) + 1 = 2) := by omega
          simp only [h1, h2, if_false, show (2 : Nat) + 1 = 3 from rfl, if_true,
            gobDecBytes_encString s _ hs, Option.some_bind]
          exact ih k 3 { p with Token := s } hrest hchain2
      | uintF i v =>
        simp only [GobField.fieldWf] at hwf
        obtain ⟨hi, hv⟩ := hwf
        subst hi
        simp only [GobField.idx] at hle
        have hd64 : 3 + 1 - fn1 < 2 ^ 64 := by omega
        have hd0 : ¬ (3 + 1 - fn1 = 0) := by omega
        have hfn : fn1 + (3 + 1 - fn1) = 4 := by omega
        have hv64 : v < 2 ^ 64 := by omega
        have hnv : ¬ (255 < v) := by omega
        have h1 : ¬ ((4 : Nat) = 1) := by omega
        have h2 : ¬ ((4 : Nat) = 2) := by omega
        have h3 : ¬ ((4 : Nat) = 3) := by omega
        simp only [encodeFieldSeq, GobField.idx, GobField.enc, List.append_assoc]
        simp only [decodeIdenFields, gobDecUint_encUint _ _ hd64, Option.some_bind]
        simp only [hd0, if_false, hfn, h1, h2, h3, if_true,
          gobDecUint_encUint _ _ hv64, Option.some_bind, hnv]
        simp only [List.foldl_cons, applyGobField]
        exact ih k 4 { p with Typ := v } hrest hchain2

lemma encodeFields_eq_fieldSeq (p : IdenPayload) :
    encodeFields (idenFieldList p) = encodeFieldSeq 0 (gobFieldsOf p) := by
  by_cases h1 : p.ID = [] <;> by_cases h2 : p.Random = [] <;>
    by_cases h3 : p.Token = [] <;> by_cases h4 : p.Typ = 0 <;>
    simp [encodeFields, idenFieldList, gobFieldsOf, encodeFieldSeq,
      GobField.idx, GobField.enc, h1, h2, h3, h4, List.append_assoc]

lemma gobFieldsOf_chain (p : IdenPayload) (h : p.wf) :
    fieldsChain 0 (gobFieldsOf p) := by
  obtain ⟨hID, hR, hT, hTy, hl1, hl2, hl3⟩ := h
  by_cases h1 : p.ID = [] <;> by_cases h2 : p.Random = [] <;>
    by_cases h3 : p.Token = [] <;> by_cases h4 : p.Typ = 0 <;>
    simp [gobFieldsOf, fieldsChain, GobField.idx, GobField.fieldWf,
      h1, h2, h3, h4, hTy] <;> omega

lemma gobFieldsOf_len (p : IdenPayload) : (gobFieldsOf p).length < 6 := by
  by_cases h1 : p.ID = [] <;> by_cases h2 : p.Random = [] <;>
    by_cases h3 : p.Token = [] <;> by_cases h4 : p.Typ = 0 <;>
    simp [gobFieldsOf, h1, h2, h3, h4]

lemma gobFieldsOf_foldl (p : IdenPayload) :
    (gobFieldsOf p).foldl applyGobField ⟨[], [], [], 0⟩ = p := by
  obtain ⟨a, b, c, d⟩ := p
  by_cases h1 : a = [] <;> by_cases h2 : b = [] <;>
    by_cases h3 : c = [] <;> by_cases h4 : d = 0 <;>
    simp [gobFieldsOf, applyGobField, h1, h2, h3, h4]

lemma encode_body_len (p : IdenPayload) (h : p.wf) :
    (gobEncInt idenTypeId ++ encodeFields (idenFieldList p)).length < 2 ^ 64 := by
  obtain ⟨hID, hR, hT, hTy, hl1, hl2, hl3⟩ := h
  have e1 := encUint_len_le p.ID.length
  have e2 := encUint_len_le p.Random.length
  have e3 := encUint_len_le p.Token.length
  have e4 := encUint_len_le p.Typ
  have hci : (gobEncInt idenTypeId).length = 2 := by decide
  have g1 : (gobEncUint 1).length = 1 := by decide
  have g2 : (gobEncUint 2).length = 1 := by decide
  have g3 : (gobEncUint 3).length = 1 := by decide
  have g4 : (gobEncUint 4).length = 1 := by decide
  by_cases h1 : p.ID = [] <;> by_cases h2 : p.Random = [] <;>
    by_cases h3 : p.Token = [] <;> by_cases h4 : p.Typ = 0 <;>
    (simp [encodeFields, idenFieldList, gobEncString, h1, h2, h3, h4,
      List.length_append, hci, g1, g2, g3, g4]; try omega)

lemma decode_encode (p : IdenPayload) (h : p.wf) :
    DecodeIdenPayload p.Encode = some p := by
  have hbody := encode_body_len p h
  unfold IdenPayload.Encode DecodeIdenPayload
  rw [gobDecUint_encUint _ _ hbody, Option.some_bind]
  simp only [lt_irrefl, if_false, List.take_length]
  have hint : gobEncInt idenTypeId = gobEncUint 130 := by
    simp [gobEncInt, idenTypeId]
  rw [hint]
  simp only [gobDecInt, gobDecUint_encUint 130 _ (by norm_num), Option.map_some]
  norm_num [idenTypeId, Option.some_bind]
  rw [encodeFields_eq_fieldSeq,
    decode_encodeFieldSeq (gobFieldsOf p) 6 0 _ (gobFieldsOf_len p)
      (gobFieldsOf_chain p h), gobFieldsOf_foldl]

/-! ## Claim theorems -/

/-- C3: wire-codec round trip — for every well-formed `IdenPayload` `p`,
decoding the buffer produced by `Encode p` succeeds and yields a payload
equal to `p`, all four fields preserved. -/
theorem wire_codec_roundtrip (p : IdenPayload) (h : p.wf) :
    DecodeIdenPayload p.Encode = some p :=
  decode_encode p h

/-- Witness for C3 at a concrete payload. -/
theorem wire_codec_roundtrip_witness :
    IdenPayload.wf ⟨[97, 98], [99], [100, 101], 2⟩ ∧
    DecodeIdenPayload (IdenPayload.Encode ⟨[97, 98], [99], [100, 101], 2⟩) =
      some ⟨[97, 98], [99], [100, 101], 2⟩ :=
  ⟨by decide, wire_codec_roundtrip ⟨[97, 98], [99], [100, 101], 2⟩ (by decide)⟩

/-- C5 counterexample: the claim says a buffer whose decoded `type` is
outside {1, 2} makes `DecodeIdenPayload` fail with a `DecodeError`, but
the encoding of a payload with type 3 decodes successfully and returns
the out-of-range type. -/
theorem decoder_type_range_counterexample :
    DecodeIdenPayload (IdenPayload.Encode ⟨[97], [98], [99], 3⟩) =
      some ⟨[97], [98], [99], 3⟩ := by decide

/-- C5 (amended): `DecodeIdenPayload` fails on truncated input or wrong
tag shapes, but performs no range check on the `type` field: a buffer
carrying a type outside {1, 2} (within `uint8`) decodes successfully,
and the out-of-range type is only rejected afterwards by
`Server.Handle`'s dispatch `default` branch (a silent close). -/
theorem decoder_no_type_range_check (key : List Nat) (p : IdenPayload)
    (h : p.wf) (h1 : p.Typ ≠ RequestTypeRead) (h2 : p.Typ ≠ RequestTypeWrite) :
    DecodeIdenPayload p.Encode = some p ∧
    DecodeIdenPayload [] = none ∧
    serverHandle key p.Encode =
      (match validateIden key p with
       | .error e => .rejected e
       | .ok _ => .invalidType p) := by
  have hd := decode_encode p h
  simp only [RequestTypeRead] at h1
  simp only [RequestTypeWrite] at h2
  refine ⟨hd, rfl, ?_⟩
  simp only [serverHandle, hd]
  cases validateIden key p <;> simp [RequestTypeRead, RequestTypeWrite, h1, h2]

/-- Witness for C5's amended theorem at a concrete type-3 payload. -/
theorem decoder_no_type_range_check_witness :
    (IdenPayload.wf ⟨[97], [98], [99], 3⟩ ∧ (3 : Nat) ≠ RequestTypeRead ∧
      (3 : Nat) ≠ RequestTypeWrite) ∧
    (DecodeIdenPayload (IdenPayload.Encode ⟨[97], [98], [99], 3⟩) =
        some ⟨[97], [98], [99], 3⟩ ∧
      DecodeIdenPayload [] = none ∧
      serverHandle [5] (IdenPayload.Encode ⟨[97], [98], [99], 3⟩) =
        (match validateIden [5] ⟨[97], [98], [99], 3⟩ with
         | .error e => .rejected e
         | .ok _ => .invalidType ⟨[97], [98], [99], 3⟩)) :=
  ⟨⟨by decide, by decide, by decide⟩,
   decoder_no_type_range_check [5] ⟨[97], [98], [99], 3⟩
     (by decide) (by decide) (by decide)⟩

/-- C1: the signature engine is `sign(m, k) = hex(sha256(m ‖ k))`
(lowercase), and mint/verify agree — `validateIden` accepts an
`IdenPayload` whose ID parses as a UUID exactly when its token equals
the digest the proxy's `generateSignature` mints for the same `Random`
and key, and errors on every other token value. -/
theorem signature_mint_verify_agree (key m t id : List Nat) (ty : Nat)
    (hid : (uuidParse id).isSome = true) :
    generateSignature key m = hexEncode (sha256 (m ++ key)) ∧
    validateIden key ⟨id, m, generateSignature key m, ty⟩ = .ok () ∧
    (validateIden key ⟨id, m, t, ty⟩ = .ok () ↔
      t = generateSignature key m) := by
  have hnone : (uuidParse id).isNone = false := by
    rcases h : uuidParse id with _ | v
    · rw [h] at hid; simp [Option.isSome] at hid
    · simp
  refine ⟨rfl, ?_, ?_⟩
  · simp [validateIden, hnone, generateSignature]
  · by_cases hc : hexEncode (sha256 (m ++ key)) = t
    · simp [validateIden, hnone, hc, generateSignature]
    · simp [validateIden, hnone, hc, generateSignature]
      exact fun hh => absurd hh.symm hc

/-- Witness for C1 at a concrete UUID, message and key. -/
theorem signature_mint_verify_agree_witness :
    (uuidParse (bytesOfString ("01234567-89ab-cdef-0123-456789abcdef"))).isSome = true ∧
    (generateSignature [7] [1, 2] = hexEncode (sha256 ([1, 2] ++ [7])) ∧
     validateIden [7] ⟨bytesOfString ("01234567-89ab-cdef-0123-456789abcdef"), [1, 2],
        generateSignature [7] [1, 2], 1⟩ = .ok () ∧
     (validateIden [7] ⟨bytesOfString ("01234567-89ab-cdef-0123-456789abcdef"),
        [1, 2], [], 1⟩ = .ok () ↔
       [] = generateSignature [7] [1, 2])) :=
  ⟨by decide, signature_mint_verify_agree [7] [1, 2] [] _ 1 (by decide)⟩

/-- C2: token isolation — any token whose header declares an HMAC
method (in particular every output of `EncodeFileAccessToken`) is
rejected by `DecodeUserToken` with the InvalidToken error, because its
key function rejects every method but Ed25519; symmetrically any
EdDSA-signed token (every output of `EncodeUserToken`) is rejected by
`DecodeFileAccessToken`, even with overlapping claim shapes. -/
theorem token_isolation (as : AuthOptions) (now : Int) :
    (∀ tok : JwtToken UserJwtPayload, tok.method.isHMAC = true →
        DecodeUserToken as now tok = .error .errInvalidJwtToken) ∧
    (∀ tok : JwtToken FileAccessJwtPayload, tok.method = .eddsa →
        DecodeFileAccessToken as now tok = .error .errInvalidJwtToken) ∧
    (∀ c : FileAccessJwtPayload,
        DecodeUserToken as now
          ((EncodeFileAccessToken as c).withClaims c.asUserClaims) =
          .error .errInvalidJwtToken) ∧
    (∀ c : UserJwtPayload,
        DecodeFileAccessToken as now
          ((EncodeUserToken as c).withClaims c.asFileClaims) =
          .error .errInvalidJwtToken) := by
  have hu : ∀ tok : JwtToken UserJwtPayload, tok.method.isHMAC = true →
      DecodeUserToken as now tok = .error .errInvalidJwtToken := by
    intro tok hm
    have hEd : tok.method.isEd25519 = false := by
      revert hm
      cases tok.method <;>
        simp [SigningMethod.isHMAC, SigningMethod.isEd25519]
    simp [DecodeUserToken, parseWithClaims, userTokenKeyFunc, hEd]
  have hf : ∀ tok : JwtToken FileAccessJwtPayload, tok.method = .eddsa →
      DecodeFileAccessToken as now tok = .error .errInvalidJwtToken := by
    intro tok hm
    simp [DecodeFileAccessToken, parseWithClaims, accessTokenKeyFunc, hm,
      SigningMethod.isHMAC]
  exact ⟨hu, hf,
    fun c => hu _ (by
      simp [EncodeFileAccessToken, JwtToken.withClaims, SigningMethod.isHMAC]),
    fun c => hf _ (by simp [EncodeUserToken, JwtToken.withClaims])⟩

/-- Witness for C2 at a concrete HMAC-signed token. -/
theorem token_isolation_witness :
    (JwtToken.method
        ⟨.hs256, .hmacKey [1], (⟨[2], [3], 9, 0, 0⟩ : UserJwtPayload)⟩).isHMAC =
      true ∧
    DecodeUserToken ⟨3, [1], 7⟩ 0 ⟨.hs256, .hmacKey [1], ⟨[2], [3], 9, 0, 0⟩⟩ =
      .error .errInvalidJwtToken :=
  ⟨by decide,
   (token_isolation ⟨3, [1], 7⟩ 0).1 ⟨.hs256, .hmacKey [1], ⟨[2], [3], 9, 0, 0⟩⟩
     (by decide)⟩

/-- C4 (code bug): decoding a correctly signed token whose `exp` is
strictly in the past returns `ErrInvalidJwtToken`, not
`ErrExpiredJwtToken` — jwt v5's `ParseWithClaims` already fails on the
expired claim, and the `err != nil` branch maps every parse failure to
InvalidToken; the payloads' own `Validate` (which would return the
Expired error, as shown) is unreachable for expired tokens.  A fresh
token still decodes successfully. -/
theorem expired_token_maps_to_invalid :
    DecodeFileAccessToken ⟨3, [1], 7⟩ 100
        (EncodeFileAccessToken ⟨3, [1], 7⟩ ⟨[97], 50, 0, 1⟩) =
      .error .errInvalidJwtToken ∧
    FileAccessJwtPayload.Validate 100 ⟨[97], 50, 0, 1⟩ =
      .error .errExpiredJwtToken ∧
    DecodeFileAccessToken ⟨3, [1], 7⟩ 0
        (EncodeFileAccessToken ⟨3, [1], 7⟩ ⟨[97], 50, 0, 1⟩) =
      .ok ⟨[97], 50, 0, 1⟩ ∧
    DecodeUserToken ⟨3, [1], 7⟩ 100
        (EncodeUserToken ⟨3, [1], 7⟩ ⟨[97], [98], 50, 0, 0⟩) =
      .error .errInvalidJwtToken ∧
    UserJwtPayload.Validate 100 ⟨[97], [98], 50, 0, 0⟩ =
      .error .errExpiredJwtToken := by decide

lemma decode_encode_file_access (as : AuthOptions) (now : Int)
    (c : FileAccessJwtPayload) (hexp : now < c.ExpiryDate) :
    DecodeFileAccessToken as now (EncodeFileAccessToken as c) = .ok c := by
  have h1 : ¬ c.ExpiryDate ≤ now := by omega
  have h2 : ¬ c.ExpiryDate < now := by omega
  simp [DecodeFileAccessToken, EncodeFileAccessToken, parseWithClaims,
    accessTokenKeyFunc, SigningMethod.isHMAC, keysMatch,
    FileAccessJwtPayload.Validate, h1, h2]

/-- C6: authorization scoping — an unexpired file-access token minted
for file `A` presented on the get-file route for a different id `B` is
rejected with the file-access-denied error by
`ExtractFileAuthorization`, and `HandleGetFile` returns that error
whatever the catalog lookup or the transports would do (so before any
of them is consulted). -/
theorem file_token_scope_check (as : AuthOptions) (now : Int)
    (lookup : List Nat → Option GetFileAndNodeInfoRow)
    (tcpO : TcpFetchOutcome) (httpO : HttpFetchOutcome)
    (mimeExts : List Nat → List (List Nat))
    (c : FileAccessJwtPayload) (fileIdB : List Nat)
    (hexp : now < c.ExpiryDate) (hne : c.FileID ≠ fileIdB) :
    ExtractFileAuthorization as now
        ⟨none, some (EncodeFileAccessToken as c)⟩ fileIdB =
      .error .errFileAccessDenied ∧
    HandleGetFile as now lookup tcpO httpO mimeExts
        ⟨none, some (EncodeFileAccessToken as c)⟩ fileIdB =
      .errorResp .errFileAccessDenied := by
  have h1 : ExtractFileAuthorization as now
      ⟨none, some (EncodeFileAccessToken as c)⟩ fileIdB =
      .error .errFileAccessDenied := by
    simp [ExtractFileAuthorization, decode_encode_file_access as now c hexp, hne]
  exact ⟨h1, by simp [HandleGetFile, h1]⟩

/-- Witness for C6 with a concrete token for file `[97]` presented for
file `[98]`. -/
theorem file_token_scope_check_witness :
    ((0 : Int) < 10 ∧ [97] ≠ [98]) ∧
    (ExtractFileAuthorization ⟨3, [1], 7⟩ 0
        ⟨none, some (EncodeFileAccessToken ⟨3, [1], 7⟩ ⟨[97], 10, 0, 1⟩)⟩ [98] =
      .error .errFileAccessDenied ∧
    HandleGetFile ⟨3, [1], 7⟩ 0 (fun _ => none) .dialError (.response 200 [])
        (fun _ => []) ⟨none, some (EncodeFileAccessToken ⟨3, [1], 7⟩ ⟨[97], 10, 0, 1⟩)⟩ [98] =
      .errorResp .errFileAccessDenied) :=
  ⟨⟨by decide, by decide⟩,
   file_token_scope_check ⟨3, [1], 7⟩ 0 (fun _ => none) .dialError
     (.response 200 []) (fun _ => []) ⟨[97], 10, 0, 1⟩ [98] (by decide) (by decide)⟩

/-- C9 (implicit): the read path never inspects the token's perm bits —
a valid, unexpired file-access token whose `sub` equals the requested
id authorizes the download whatever its `Permission` value; the
response is identical for any two permission values, and a Write-only
token (perm = 2, Read bit clear) still obtains the file bytes. -/
theorem read_path_ignores_perm (as : AuthOptions) (now : Int)
    (lookup : List Nat → Option GetFileAndNodeInfoRow)
    (tcpO : TcpFetchOutcome) (httpO : HttpFetchOutcome)
    (mimeExts : List Nat → List (List Nat))
    (c : FileAccessJwtPayload) (fileId : List Nat) (p q : Nat)
    (u : List Nat) (info : GetFileAndNodeInfoRow) (port : Nat) (s : List Nat)
    (hexp : now < c.ExpiryDate) (hid : c.FileID = fileId)
    (hu : uuidParse fileId = some u)
    (hl : lookup (uuidToString u) = some info)
    (htcp : info.NodeTCPPort = some port) :
    ExtractFileAuthorization as now
        ⟨none, some (EncodeFileAccessToken as { c with Permission := p })⟩ fileId =
      .ok ⟨true, false, [], p⟩ ∧
    HandleGetFile as now lookup tcpO httpO mimeExts
        ⟨none, some (EncodeFileAccessToken as { c with Permission := p })⟩ fileId =
      HandleGetFile as now lookup tcpO httpO mimeExts
        ⟨none, some (EncodeFileAccessToken as { c with Permission := q })⟩ fileId ∧
    HandleGetFile as now lookup (.connected s) httpO mimeExts
        ⟨none, some (EncodeFileAccessToken as
          { c with Permission := FileAccessPermWrite })⟩ fileId =
      .fileResp info.Checksum info.ContentType
        (sanitizeFileName mimeExts info.Name info.ContentType) (some s) := by
  subst hid
  have hauth : ∀ r : Nat, ExtractFileAuthorization as now
      ⟨none, some (EncodeFileAccessToken as { c with Permission := r })⟩ c.FileID =
      .ok ⟨true, false, [], r⟩ := by
    intro r
    simp [ExtractFileAuthorization,
      decode_encode_file_access as now { c with Permission := r } hexp]
  refine ⟨hauth p, ?_, ?_⟩
  · simp [HandleGetFile, hauth p, hauth q]
  · simp [HandleGetFile, hauth FileAccessPermWrite, hu, hl, htcp, handleGetFileTCP]

/-- Witness for C9: a write-only (perm = 2) token downloads the file. -/
theorem read_path_ignores_perm_witness :
    ((0 : Int) < 10 ∧
     uuidParse (bytesOfString ("01234567-89ab-cdef-0123-456789abcdef")) =
       some [1, 35, 69, 103, 137, 171, 205, 239, 1, 35, 69, 103, 137, 171, 205, 239]) ∧
    (ExtractFileAuthorization ⟨3, [1], 7⟩ 0
        ⟨none, some (EncodeFileAccessToken ⟨3, [1], 7⟩
          ⟨bytesOfString ("01234567-89ab-cdef-0123-456789abcdef"), 10, 0, 2⟩)⟩
        (bytesOfString ("01234567-89ab-cdef-0123-456789abcdef")) =
      .ok ⟨true, false, [], 2⟩ ∧
    HandleGetFile ⟨3, [1], 7⟩ 0
        (fun w => if w = bytesOfString ("01234567-89ab-cdef-0123-456789abcdef") then
          some ⟨[], [], [1], [2], [110, 46, 97], [], 80, some 9000, false, []⟩ else none)
        (.connected [5, 6]) (.response 200 []) (fun _ => [])
        ⟨none, some (EncodeFileAccessToken ⟨3, [1], 7⟩
          ⟨bytesOfString ("01234567-89ab-cdef-0123-456789abcdef"), 10, 0, 2⟩)⟩
        (bytesOfString ("01234567-89ab-cdef-0123-456789abcdef")) =
      HandleGetFile ⟨3, [1], 7⟩ 0
        (fun w => if w = bytesOfString ("01234567-89ab-cdef-0123-456789abcdef") then
          some ⟨[], [], [1], [2], [110, 46, 97], [], 80, some 9000, false, []⟩ else none)
        (.connected [5, 6]) (.response 200 []) (fun _ => [])
        ⟨none, some (EncodeFileAccessToken ⟨3, [1], 7⟩
          ⟨bytesOfString ("01234567-89ab-cdef-0123-456789abcdef"), 10, 0, 1⟩)⟩
        (bytesOfString ("01234567-89ab-cdef-0123-456789abcdef")) ∧
    HandleGetFile ⟨3, [1], 7⟩ 0
        (fun w => if w = bytesOfString ("01234567-89ab-cdef-0123-456789abcdef") then
          some ⟨[], [], [1], [2], [110, 46, 97], [], 80, some 9000, false, []⟩ else none)
        (.connected [5, 6]) (.response 200 []) (fun _ => [])
        ⟨none, some (EncodeFileAccessToken ⟨3, [1], 7⟩
          ⟨bytesOfString ("01234567-89ab-cdef-0123-456789abcdef"), 10, 0,
            FileAccessPermWrite⟩)⟩
        (bytesOfString ("01234567-89ab-cdef-0123-456789abcdef")) =
      .fileResp [1] [2]
        (sanitizeFileName (fun _ => []) [110, 46, 97] [2]) (some [5, 6])) :=
  ⟨⟨by decide, by decide⟩,
   read_path_ignores_perm ⟨3, [1], 7⟩ 0
     (fun w => if w = bytesOfString ("01234567-89ab-cdef-0123-456789abcdef") then
       some ⟨[], [], [1], [2], [110, 46, 97], [], 80, some 9000, false, []⟩ else none)
     (.connected [5, 6]) (.response 200 []) (fun _ => [])
     ⟨bytesOfString ("01234567-89ab-cdef-0123-456789abcdef"), 10, 0, 1⟩
     (bytesOfString ("01234567-89ab-cdef-0123-456789abcdef")) 2 1
     [1, 35, 69, 103, 137, 171, 205, 239, 1, 35, 69, 103, 137, 171, 205, 239]
     ⟨[], [], [1], [2], [110, 46, 97], [], 80, some 9000, false, []⟩ 9000 [5, 6]
     (by decide) (by decide) (by decide) (by decide) (by decide)⟩

/-- C7 (code bug): on the HTTP path a non-200 node response is not
surfaced as an error — `handleGetFileHttp` executes `return nil, err`
while `err` is still nil, so `HandleGetFile` proceeds as on success and
answers with the file headers and a nil body stream instead of an
error, here evaluated at a node row without a TCP port whose HTTP
endpoint answers 500. -/
theorem http_non200_not_surfaced :
    HandleGetFile ⟨3, [1], 7⟩ 0
      (fun q => if q = bytesOfString ("01234567-89ab-cdef-0123-456789abcdef") then
          some ⟨[], [], [1], [2], [110, 46, 97], [], 80, none, false, []⟩ else none)
      .dialError (.response 500 [])
      (fun _ => [])
      ⟨none, some (EncodeFileAccessToken ⟨3, [1], 7⟩
        ⟨bytesOfString ("01234567-89ab-cdef-0123-456789abcdef"), 10, 0, 1⟩)⟩
      (bytesOfString ("01234567-89ab-cdef-0123-456789abcdef")) =
      .fileResp [1] [2] [110, 46, 97] none := by decide

/-- C8: all-or-nothing TCP writes — after a mid-copy I/O error the node
removes `<data_dir>/<id>`, so nothing remains at that path; a copy that
reaches the peer's EOF leaves exactly the copied content; a failed
create leaves the file system untouched. -/
theorem write_failure_removes_file (fs : FileSystem) (dataDir : List Nat)
    (iden : IdenPayload) (written content : List Nat) :
    HandleWrite fs dataDir iden true (.ioErrorAfter written)
        (dataPath dataDir iden.ID) = none ∧
    HandleWrite fs dataDir iden true (.eofAfter content)
        (dataPath dataDir iden.ID) = some content ∧
    (∀ q, HandleWrite fs dataDir iden false (.ioErrorAfter written) q = fs q) := by
  refine ⟨?_, ?_, fun q => ?_⟩ <;> simp [HandleWrite, fsSet, fsRemove]

lemma splitOnSpace_no_space (a : List Nat) (ha : 32 ∉ a) :
    splitOnSpace a = [a] := by
  induction a with
  | nil => rfl
  | cons b rest ih =>
    have hb : b ≠ 32 := fun h => ha (h ▸ List.mem_cons_self b rest)
    have hrest : 32 ∉ rest := fun h => ha (List.mem_cons_of_mem b h)
    simp [splitOnSpace, hb, ih hrest]

lemma splitOnSpace_two (a b : List Nat) (ha : 32 ∉ a) (hb : 32 ∉ b) :
    splitOnSpace (a ++ 32 :: b) = [a, b] := by
  induction a with
  | nil => simp [splitOnSpace, splitOnSpace_no_space b hb]
  | cons x rest ih =>
    have hx : x ≠ 32 := fun h => ha (h ▸ List.mem_cons_self x rest)
    have hrest : 32 ∉ rest := fun h => ha (List.mem_cons_of_mem x h)
    simp [splitOnSpace, hx, ih hrest]

lemma hexEncode_no_space (l : List Nat) : 32 ∉ hexEncode l := by
  intro hmem
  simp [hexEncode, List.mem_flatMap] at hmem
  rcases hmem with ⟨b, _, h | h⟩ <;> simp [hexDigit] at h <;> split at h <;> omega

/-- C10 (implicit): the node's HTTP signature check never compares the
scheme word — for a header of exactly two space-separated words,
validation succeeds iff the second word equals
`hex(sha256(rnd ‖ key))`, and any scheme word (`Bearer` included) with
a correct digest is accepted. -/
theorem node_http_scheme_not_checked (key rnd h w1 w2 scheme : List Nat)
    (hs : splitOnSpace h = [w1, w2]) (hsc : 32 ∉ scheme) :
    (extractSignatureAuthorization key (some h) rnd = .ok () ↔
      w2 = hexEncode (sha256 (rnd ++ key))) ∧
    extractSignatureAuthorization key
      (some (scheme ++ 32 :: hexEncode (sha256 (rnd ++ key)))) rnd = .ok () := by
  constructor
  · by_cases hc : hexEncode (sha256 (rnd ++ key)) = w2
    · simp [extractSignatureAuthorization, extractAuthorizationHeader, hs, hc]
    · simp [extractSignatureAuthorization, extractAuthorizationHeader, hs, hc]
      exact fun hh => absurd hh.symm hc
  · simp [extractSignatureAuthorization, extractAuthorizationHeader,
      splitOnSpace_two scheme _ hsc (hexEncode_no_space _)]

/-- Witness for C10 with the header `Bearer xyz` and scheme `Bearer`. -/
theorem node_http_scheme_not_checked_witness :
    (splitOnSpace (bytesOfString ("Bearer xyz")) =
      [bytesOfString ("Bearer"), bytesOfString ("xyz")]) ∧
    32 ∉ bytesOfString ("Bearer") ∧
    ((extractSignatureAuthorization [7] (some (bytesOfString ("Bearer xyz"))) [1] = .ok () ↔
      bytesOfString ("xyz") = hexEncode (sha256 ([1] ++ [7]))) ∧
    extractSignatureAuthorization [7]
      (some (bytesOfString ("Bearer") ++ 32 :: hexEncode (sha256 ([1] ++ [7])))) [1] = .ok ()) :=
  ⟨by decide, by decide,
   node_http_scheme_not_checked [7] [1] (bytesOfString ("Bearer xyz"))
     (bytesOfString ("Bearer")) (bytesOfString ("xyz")) (bytesOfString ("Bearer"))
     (by decide) (by decide)⟩

end Downloader
